import Mathlib

/-!
Verification of the agentic control loop of the logSense repository
(`src/backend/agent/autonomous_agent.py`): the free-text action parser
(`_parse_llm_response`), the tool dispatcher (`_execute_tool`), the bounded
ReAct iteration loop (`investigate`) and the planning extension
(`plan_investigation` / `investigate_with_planning`).

Modelling conventions:
* Python strings are Lean `String`s; `str.strip`, `str.split`, `str.replace`,
  `str.startswith` and slicing are modelled by the character-list functions
  `pyStrip`, `pySplitOn`, `pyReplace`, `pyStartsWith`, `pyTake` below.
* Python dict/list/JSON values are the inductive `Json` below.  The standard
  library functions `json.loads` and `json.dumps(..., indent=2)` are modelled
  over the ASCII / integer-numeral JSON fragment the agent protocol uses
  (floats and `\uXXXX` escapes make the modelled loader fail, which the
  source code catches exactly like any other `JSONDecodeError`).
* Python floats appearing in the agent (`confidence / 100.0`, the literal
  `0.3`) are modelled as exact rationals.
* `await`-able failure points (the stream callback, which the source never
  guards) are modelled with `Except String`; code that the source wraps in
  `try/except` is modelled by the corresponding `Option`/fallback match, so
  the embedded parser is total by construction, just as the source parser
  catches every exception it can raise.
* Wall-clock timestamps attached to progress events
  (`datetime.utcnow().isoformat()`) are outside the model; events carry the
  remaining payload fields.
* The external collaborators are parameters: the language model is a function
  from the message history to the response text, a registered tool capability
  is a function from its JSON arguments to a result-or-raised-exception, and
  the stream callback is an optional function that may fail.  Every contact
  with a collaborator is recorded in an explicit `Effect` trace.
-/

namespace LogSense

/-- Python whitespace recognized by `str.strip()`. -/
def pyIsSpace (c : Char) : Bool :=
  c = ' ' || c = '\t' || c = '\n' || c = '\r' || c = Char.ofNat 11 || c = Char.ofNat 12

/-- Python `str.strip()`: drop whitespace from both ends. -/
def pyStrip (s : String) : String :=
  String.mk (((s.toList.dropWhile pyIsSpace).reverse.dropWhile pyIsSpace).reverse)

/-- Python `s.startswith(pre)`. -/
def pyStartsWith (s pre : String) : Bool :=
  pre.toList.isPrefixOf s.toList

/-- Worker for Python `str.split(sep)` over character lists, fuelled by the
input length (each step consumes at least one character). -/
def splitOnAux (sep : List Char) : Nat → List Char → List (List Char)
  | 0, cs => [cs]
  | fuel + 1, cs =>
    match cs with
    | [] => [[]]
    | c :: rest =>
      if sep.isPrefixOf cs then
        [] :: splitOnAux sep fuel (cs.drop sep.length)
      else
        match splitOnAux sep fuel rest with
        | [] => [[c]]
        | h :: t => (c :: h) :: t

/-- Python `s.split(sep)` for a non-empty separator (every separator in the
agent is a non-empty literal marker). -/
def pySplitOn (s sep : String) : List String :=
  (splitOnAux sep.toList (s.toList.length + 1) s.toList).map String.mk

/-- Python `s.replace(old, new)`, i.e. `new.join(s.split(old))`. -/
def pyReplace (s old new : String) : String :=
  String.intercalate new (pySplitOn s old)

/-- Python `s[:n]` for strings. -/
def pyTake (s : String) (n : Nat) : String := String.mk (s.toList.take n)

/-- Python `len(s)` (character count). -/
def pyLen (s : String) : Nat := s.toList.length

/-- Python `s.split("\n")`. -/
def pySplitLines (s : String) : List String := pySplitOn s "\n"

/-- Python `needle in haystack` for strings, via the same `split` used next to
it in the source: the marker occurs iff splitting on it yields ≥ 2 parts. -/
def pyContains (haystack needle : String) : Bool :=
  (pySplitOn haystack needle).length > 1

/-- Python `s.split(marker)[i]` (the source only indexes after an `in` guard,
so the default is never reached on the guarded paths). -/
def pySplitGet (s marker : String) (i : Nat) : String :=
  (pySplitOn s marker).getD i ""

/-- Digit run to a natural number; `none` when empty or a non-digit occurs. -/
def digitsToNat (cs : List Char) : Option Nat :=
  if cs = [] then none
  else if cs.all Char.isDigit then
    some (cs.foldl (fun acc c => acc * 10 + (c.toNat - 48)) 0)
  else none

/-- Python `int(s)`: strip whitespace, optional sign, decimal digits;
`none` models the `ValueError` the source catches. -/
def pyInt (s : String) : Option Int :=
  let t := pyStrip s
  match t.toList with
  | [] => none
  | c :: rest =>
    if c = '-' then (digitsToNat rest).map (fun n => -(n : Int))
    else if c = '+' then (digitsToNat rest).map (fun n => (n : Int))
    else (digitsToNat (c :: rest)).map (fun n => (n : Int))

/-- Python `s.strip(chars)`: drop characters of the set from both ends. -/
def pyStripChars (chars : List Char) (s : String) : String :=
  String.mk ((((s.toList.dropWhile (fun c => chars.contains c)).reverse.dropWhile
      (fun c => chars.contains c))).reverse)

/-- Literal left brace, kept out of string literals. -/
def lbrace : String := String.singleton (Char.ofNat 123)

/-- Literal right brace, kept out of string literals. -/
def rbrace : String := String.singleton (Char.ofNat 125)

/-- JSON / Python values exchanged with the tools and embedded in responses. -/
inductive Json where
  | null
  | bool (b : Bool)
  | int (n : Int)
  | str (s : String)
  | arr (elems : List Json)
  | obj (fields : List (String × Json))

/-- Whitespace skipped by the JSON loader. -/
def isJsonWs (c : Char) : Bool :=
  c = ' ' || c = '\t' || c = '\n' || c = '\r'

/-- Skip leading JSON whitespace. -/
def skipWs (cs : List Char) : List Char := cs.dropWhile isJsonWs

/-- Body of a JSON string after the opening quote; returns the decoded string
and the characters after the closing quote. -/
def parseStringBody : Nat → List Char → Option (String × List Char)
  | 0, _ => none
  | _ + 1, [] => none
  | fuel + 1, c :: rest =>
    if c = '"' then some ("", rest)
    else if c = '\\' then
      match rest with
      | [] => none
      | e :: rest2 =>
        let esc : Option Char :=
          if e = '"' then some '"'
          else if e = '\\' then some '\\'
          else if e = '/' then some '/'
          else if e = 'n' then some '\n'
          else if e = 't' then some '\t'
          else if e = 'r' then some '\r'
          else if e = 'b' then some (Char.ofNat 8)
          else if e = 'f' then some (Char.ofNat 12)
          else none
        match esc with
        | some ch =>
          (parseStringBody fuel rest2).map (fun p => (String.singleton ch ++ p.1, p.2))
        | none => none
    else
      (parseStringBody fuel rest).map (fun p => (String.singleton c ++ p.1, p.2))

/-- JSON integer numeral (the fragment used by the agent protocol; a fractional
or exponent part makes the loader fail, which the caller treats as a decode
error). -/
def parseJsonNumber (cs : List Char) : Option (Json × List Char) :=
  match cs with
  | '-' :: rest =>
    let ds := rest.takeWhile Char.isDigit
    let rem := rest.drop ds.length
    match digitsToNat ds with
    | none => none
    | some n =>
      match rem with
      | '.' :: _ => none
      | 'e' :: _ => none
      | 'E' :: _ => none
      | _ => some (Json.int (-(n : Int)), rem)
  | _ =>
    let ds := cs.takeWhile Char.isDigit
    let rem := cs.drop ds.length
    match digitsToNat ds with
    | none => none
    | some n =>
      match rem with
      | '.' :: _ => none
      | 'e' :: _ => none
      | 'E' :: _ => none
      | _ => some (Json.int (n : Int), rem)

/-- Parser mode: a plain value, the elements of an array, or the fields of an
object (`first` marks that no element has been consumed yet, so a closing
delimiter is still allowed). -/
inductive PMode where
  | value
  | arrElems (acc : List Json) (first : Bool)
  | objFields (acc : List (String × Json)) (first : Bool)

/-- Recursive-descent JSON reader, structurally recursive on fuel. -/
def parseJ : Nat → PMode → List Char → Option (Json × List Char)
  | 0, _, _ => none
  | fuel + 1, PMode.value, cs =>
    match skipWs cs with
    | [] => none
    | c :: rest =>
      if c = '"' then
        (parseStringBody (rest.length + 1) rest).map (fun p => (Json.str p.1, p.2))
      else if c = Char.ofNat 123 then parseJ fuel (PMode.objFields [] true) rest
      else if c = '[' then parseJ fuel (PMode.arrElems [] true) rest
      else if c = 't' then
        match rest with
        | 'r' :: 'u' :: 'e' :: r => some (Json.bool true, r)
        | _ => none
      else if c = 'f' then
        match rest with
        | 'a' :: 'l' :: 's' :: 'e' :: r => some (Json.bool false, r)
        | _ => none
      else if c = 'n' then
        match rest with
        | 'u' :: 'l' :: 'l' :: r => some (Json.null, r)
        | _ => none
      else if c = '-' || c.isDigit then parseJsonNumber (c :: rest)
      else none
  | fuel + 1, PMode.arrElems acc first, cs =>
    match skipWs cs with
    | ']' :: r => if first then some (Json.arr [], r) else none
    | cs1 =>
      match parseJ fuel PMode.value cs1 with
      | none => none
      | some (v, rest) =>
        match skipWs rest with
        | ',' :: r2 => parseJ fuel (PMode.arrElems (acc ++ [v]) false) r2
        | ']' :: r2 => some (Json.arr (acc ++ [v]), r2)
        | _ => none
  | fuel + 1, PMode.objFields acc first, cs =>
    match skipWs cs with
    | [] => none
    | c :: r =>
      if c = Char.ofNat 125 then
        if first then some (Json.obj [], r) else none
      else if c = '"' then
        match parseStringBody (r.length + 1) r with
        | none => none
        | some (k, r2) =>
          match skipWs r2 with
          | ':' :: r3 =>
            match parseJ fuel PMode.value r3 with
            | none => none
            | some (v, r4) =>
              match skipWs r4 with
              | ',' :: r5 => parseJ fuel (PMode.objFields (acc ++ [(k, v)]) false) r5
              | c2 :: r5 =>
                if c2 = Char.ofNat 125 then some (Json.obj (acc ++ [(k, v)]), r5)
                else none
              | [] => none
          | _ => none
      else none

/-- Python `json.loads`: parse one value, allow only trailing whitespace. -/
def jsonLoads (s : String) : Option Json :=
  let cs := s.toList
  match parseJ (2 * cs.length + 4) PMode.value cs with
  | some (v, rest) => if (skipWs rest).isEmpty then some v else none
  | none => none

/-- JSON string escaping used by `json.dumps` (ASCII fragment). -/
def jsonEscapeString (s : String) : String :=
  s.toList.foldl
    (fun acc c =>
      acc ++
        (if c = '"' then "\\\""
         else if c = '\\' then "\\\\"
         else if c = '\n' then "\\n"
         else if c = '\t' then "\\t"
         else if c = '\r' then "\\r"
         else String.singleton c))
    ""

/-- Indentation prefix used by `json.dumps(..., indent=2)`. -/
def indentStr (level : Nat) : String :=
  String.mk (List.replicate (2 * level) ' ')

mutual

/-- Worker for `json.dumps(value, indent=2)` at an indentation level. -/
def jsonDumpsAt : Nat → Json → String
  | _, Json.null => "null"
  | _, Json.bool true => "true"
  | _, Json.bool false => "false"
  | _, Json.int n => toString n
  | _, Json.str s => "\"" ++ jsonEscapeString s ++ "\""
  | _, Json.arr [] => "[]"
  | level, Json.arr (x :: xs) =>
    "[\n" ++ jsonDumpsItems (level + 1) (x :: xs) ++ "\n" ++ indentStr level ++ "]"
  | _, Json.obj [] => lbrace ++ rbrace
  | level, Json.obj (kv :: kvs) =>
    lbrace ++ "\n" ++ jsonDumpsFields (level + 1) (kv :: kvs) ++ "\n" ++
      indentStr level ++ rbrace

/-- Array items, indented and separated by `",\n"`. -/
def jsonDumpsItems : Nat → List Json → String
  | _, [] => ""
  | level, [x] => indentStr level ++ jsonDumpsAt level x
  | level, x :: xs =>
    indentStr level ++ jsonDumpsAt level x ++ ",\n" ++ jsonDumpsItems level xs

/-- Object fields, indented and separated by `",\n"`. -/
def jsonDumpsFields : Nat → List (String × Json) → String
  | _, [] => ""
  | level, [kv] =>
    indentStr level ++ "\"" ++ jsonEscapeString kv.1 ++ "\": " ++ jsonDumpsAt level kv.2
  | level, kv :: kvs =>
    indentStr level ++ "\"" ++ jsonEscapeString kv.1 ++ "\": " ++ jsonDumpsAt level kv.2 ++
      ",\n" ++ jsonDumpsFields level kvs

end

/-- Python `json.dumps(v, indent=2, default=str)` as used for observations. -/
def jsonDumps (v : Json) : String := jsonDumpsAt 0 v

/-- CPython `repr` of a string (printable-ASCII fragment): single quotes,
double quotes when the text holds a single quote but no double quote. -/
def pyReprString (s : String) : String :=
  let useDouble := s.toList.contains '\'' && !(s.toList.contains '"')
  let quote : Char := if useDouble then '"' else '\''
  let body :=
    s.toList.foldl
      (fun acc c =>
        acc ++
          (if c = '\\' then "\\\\"
           else if c = quote then "\\" ++ String.singleton quote
           else if c = '\n' then "\\n"
           else if c = '\t' then "\\t"
           else if c = '\r' then "\\r"
           else String.singleton c))
      ""
  String.singleton quote ++ body ++ String.singleton quote

mutual

/-- Python `repr` of a JSON-shaped value. -/
def pyRepr : Json → String
  | Json.null => "None"
  | Json.bool true => "True"
  | Json.bool false => "False"
  | Json.int n => toString n
  | Json.str s => pyReprString s
  | Json.arr xs => "[" ++ pyReprItems xs ++ "]"
  | Json.obj kvs => lbrace ++ pyReprFields kvs ++ rbrace

/-- List items of a Python `repr`, separated by `", "`. -/
def pyReprItems : List Json → String
  | [] => ""
  | [x] => pyRepr x
  | x :: xs => pyRepr x ++ ", " ++ pyReprItems xs

/-- Dict fields of a Python `repr`, separated by `", "`. -/
def pyReprFields : List (String × Json) → String
  | [] => ""
  | [kv] => pyReprString kv.1 ++ ": " ++ pyRepr kv.2
  | kv :: kvs => pyReprString kv.1 ++ ": " ++ pyRepr kv.2 ++ ", " ++ pyReprFields kvs

end

/-- Python `str(v)`: for a string the text itself, otherwise `repr`
(`str(dict) == repr(dict)`, `str(list) == repr(list)`). -/
def pyStr (v : Json) : String :=
  match v with
  | Json.str s => s
  | _ => pyRepr v

/-- Python `re.search(r-delimited-greedy, text, re.DOTALL)` for the two
patterns the source uses (`first delimiter .. last closing delimiter`):
the greedy `.*` makes the match run from the first opening character to the
last closing character after it, or fail. -/
def reSearchDelim (l r : Char) (s : String) : Option String :=
  let cs := s.toList
  match cs.findIdx? (fun c => c = l) with
  | none => none
  | some i =>
    match cs.reverse.findIdx? (fun c => c = r) with
    | none => none
    | some k =>
      let j := cs.length - 1 - k
      if i < j then some (String.mk ((cs.drop i).take (j - i + 1))) else none

/-- The `re.search(r'\x7b.*\x7d', text, re.DOTALL)` fallback for arguments. -/
def reSearchBraces (s : String) : Option String :=
  reSearchDelim (Char.ofNat 123) (Char.ofNat 125) s

/-- The `re.search(r'[.*]', text, re.DOTALL)` pattern (brackets escaped in the
source) used for `SUGGESTED_FIXES` and `KEY_FINDINGS`. -/
def reSearchBrackets (s : String) : Option String :=
  reSearchDelim '[' ']' s

/-- Parsed action dictionary produced by `_parse_llm_response` (the `content`
dict of the source).  `empty` is the initial `content = ` empty dict, left
untouched when an `ACTION:` line has an unrecognized value or a `THINK` block
has no `REASONING:` line. -/
inductive Parsed where
  | think (reasoning : String)
  | tool_call (tool : Option String) (arguments : Json)
  | answer (root_cause : String) (confidence : Int) (suggested_fixes : List Json)
      (key_findings : List Json)
  | empty

/-- Scan for the first line starting with `ACTION:`; return its stripped value
and the following lines (the source's `for i, line in enumerate(lines)` with a
`break` at the end of the matching branch). -/
def find_action : List String → Option (String × List String)
  | [] => none
  | l :: ls =>
    if pyStartsWith l "ACTION:" then some ((pyStrip (pyReplace l "ACTION:" "")), ls)
    else find_action ls

/-- THINK branch: find the first `REASONING:` line after the action line, then
collect every following line up to a fence or the next `ACTION:` line. -/
def find_reasoning : List String → Option (List String)
  | [] => none
  | l :: ls =>
    if pyStartsWith l "REASONING:" then
      some (ls.takeWhile (fun k => !(pyStartsWith k "```" || pyStartsWith k "ACTION:")))
    else find_reasoning ls

/-- TOOL_CALL branch: the `ARGUMENTS:` text is the stripped remainder of the
marker line plus every following line (space-joined) up to a fence or the next
`ACTION:` line. -/
def arguments_text (base : String) (ls : List String) : String :=
  (ls.takeWhile (fun k => !(pyStartsWith k "ACTION:" || pyStartsWith k "```"))).foldl
    (fun acc k => acc ++ " " ++ k) base

/-- TOOL_CALL branch: `json.loads` the arguments text; on failure, try the
greedy brace regex and `json.loads` its match (empty dict when that fails
too); when no brace match exists the previously held arguments survive. -/
def parse_arguments (t : String) (prev : Json) : Json :=
  match jsonLoads t with
  | some v => v
  | none =>
    match reSearchBraces t with
    | some sub =>
      match jsonLoads sub with
      | some v => v
      | none => Json.obj []
    | none => prev

/-- TOOL_CALL branch: walk the lines after the action line, updating the tool
name at each `TOOL:` line and the arguments at each `ARGUMENTS:` line. -/
def scan_tool_call : List String → Option String → Json → (Option String × Json)
  | [], tn, args => (tn, args)
  | l :: ls, tn, args =>
    if pyStartsWith l "TOOL:" then
      scan_tool_call ls (some (pyStrip (pyReplace l "TOOL:" ""))) args
    else if pyStartsWith l "ARGUMENTS:" then
      scan_tool_call ls tn
        (parse_arguments (arguments_text (pyStrip (pyReplace l "ARGUMENTS:" "")) ls) args)
    else scan_tool_call ls tn args

/-- ANSWER branch: `KEY_FINDINGS` bullet fallback — lines whose stripped text
starts with a dash, stripped of dashes and spaces. -/
def bullet_findings (findings_text : String) : List Json :=
  (((pySplitOn findings_text "\n")).filter
      (fun l => pyStartsWith (pyStrip l) "-")).map
    (fun l => Json.str (pyStrip (pyStripChars ['-', ' '] l)))

/-- ANSWER branch: extract `ROOT_CAUSE`, `CONFIDENCE` (50 when `int` fails),
`SUGGESTED_FIXES` (first greedy JSON array, else empty) and `KEY_FINDINGS`
(first greedy JSON array; bullet fallback only when its JSON parse raises). -/
def parse_answer (answer_text : String) : Parsed :=
  let root_cause :=
    if pyContains answer_text "ROOT_CAUSE:" then
      pyStrip ((pySplitOn (pySplitGet answer_text "ROOT_CAUSE:" 1) "\n").headD "")
    else ""
  let confidence : Int :=
    if pyContains answer_text "CONFIDENCE:" then
      match pyInt (pyStrip ((pySplitOn (pySplitGet answer_text "CONFIDENCE:" 1) "\n").headD "")) with
      | some n => n
      | none => 50
    else 0
  let fixes : List Json :=
    if pyContains answer_text "SUGGESTED_FIXES:" then
      let fixes_text := pySplitGet answer_text "SUGGESTED_FIXES:" 1
      let fixes_text :=
        if pyContains fixes_text "KEY_FINDINGS:" then
          (pySplitOn fixes_text "KEY_FINDINGS:").headD ""
        else fixes_text
      match reSearchBrackets fixes_text with
      | some sub =>
        match jsonLoads sub with
        | some (Json.arr xs) => xs
        | _ => []
      | none => []
    else []
  let findings : List Json :=
    if pyContains answer_text "KEY_FINDINGS:" then
      let findings_text := pySplitGet answer_text "KEY_FINDINGS:" 1
      match reSearchBrackets findings_text with
      | some sub =>
        match jsonLoads sub with
        | some (Json.arr xs) => xs
        | _ => bullet_findings findings_text
      | none => []
    else []
  Parsed.answer root_cause confidence fixes findings

/-- Source `_parse_llm_response` (autonomous_agent.py lines 231-360).  The
local `action` below mirrors the source's `action = None` on line 236, which
is never reassigned anywhere in the function — only `action_type` is set — so
the final `if not action:` fallback (line 353) always replaces the computed
`content` with a THINK action holding the raw response. -/
def _parse_llm_response (response : String) : Parsed :=
  let lines := pySplitLines (pyStrip response)
  let action : Option String := none
  let content : Parsed :=
    match find_action lines with
    | none => Parsed.empty
    | some (action_type, rest) =>
      if action_type = "THINK" then
        match find_reasoning rest with
        | some rls =>
          Parsed.think (pyStrip (pyReplace (String.intercalate " " rls) "REASONING:" ""))
        | none => Parsed.empty
      else if action_type = "TOOL_CALL" then
        let tc := scan_tool_call rest none (Json.obj [])
        Parsed.tool_call tc.1 tc.2
      else if action_type = "ANSWER" then
        parse_answer ("\n".intercalate rest)
      else Parsed.empty
  if action.isNone then Parsed.think response else content

/-- Conversation messages (`SystemMessage` / `HumanMessage` / `AIMessage`),
reduced to their `content` text, which is all the agent reads or writes. -/
inductive Msg where
  | system (content : String)
  | human (content : String)
  | ai (content : String)

/-- Entries of the `observations` list kept for the final result. -/
inductive Obs where
  | thought (content : String)
  | tool_result (tool : String) (result : Json)

/-- The `final_answer` dict returned by `investigate`.  `confidence` is an
exact rational standing for the Python float. -/
structure FinalAnswer where
  root_cause : String
  confidence : Rat
  suggested_fixes : List Json
  key_findings : List Json
  iterations : Nat
  observations : List Obs

/-- Payloads of the `_emit_step` progress events (timestamps omitted, see the
module docstring). -/
inductive StepData where
  | start (issue_id error_message mode : String)
  | iterationEv (number max : Nat)
  | thinking (iteration : Nat) (reasoning : String)
  | toolCallEv (iteration : Nat) (tool : Option String) (arguments : Json)
  | toolExecution (tool : String) (arguments : Json)
  | toolResultOk (tool : String) (result_preview : String)
  | toolResultErr (tool : String) (error : String)
  | finalAnswerEv (parsed : Parsed)
  | investigationPlan (plan : List String) (raw_plan : String)

/-- Messages delivered to the stream callback: per-step events and the final
`complete` event. -/
inductive AgentEvent where
  | step (step_type : String) (data : StepData)
  | complete (issue_id error_message : String) (answer : FinalAnswer) (status : String)

/-- Trace of every contact with an external collaborator: `_emit_step`
invocations, model invocations (with the exact message list passed), invoked
registered tool capabilities, and the terminal `complete` delivery. -/
inductive Effect where
  | emitted (step_type : String) (data : StepData)
  | llmInvoke (messages : List Msg)
  | capability (tool : String) (arguments : Json)
  | completeSent (issue_id error_message : String) (answer : FinalAnswer)

/-- Outcome of awaiting a registered tool capability: a JSON result or a
raised exception with its message (`str(e)`). -/
inductive CapResult where
  | ok (value : Json)
  | exn (message : String)

/-- The agent's collaborators and configuration: the model, the optional
stream callback (which may fail when awaited — the source never guards it),
the registered tool capabilities, and `self.max_iterations`. -/
structure AgentConfig where
  llm : List Msg → String
  stream_callback : Option (AgentEvent → Except String Unit)
  caps : String → Json → CapResult
  max_iterations : Nat

/-- A stream callback configuration that never fails when awaited (absent, or
present and always succeeding). -/
def benign : Option (AgentEvent → Except String Unit) → Prop
  | none => True
  | some cb => ∀ ev, cb ev = Except.ok ()

/-- Source `_emit_step`: wrap the payload and await the callback when one is
present.  Returns the emitted-event trace; a callback exception propagates. -/
def _emit_step (cfg : AgentConfig) (step_type : String) (data : StepData) :
    Except String (List Effect) :=
  match cfg.stream_callback with
  | none => Except.ok [Effect.emitted step_type data]
  | some cb =>
    match cb (AgentEvent.step step_type data) with
    | Except.ok _ => Except.ok [Effect.emitted step_type data]
    | Except.error m => Except.error m

/-- Static description of one registered tool (source lines 78-115). -/
structure ToolInfo where
  name : String
  description : String
  parameters : List (String × String)
  returns : String

/-- The five registered tools, with the exact catalog texts of the source. -/
def tools_catalog : List ToolInfo :=
  [⟨"get_sentry_issue_details",
    "Fetch detailed information about a Sentry issue including metadata, stats, and tags",
    [("issue_id", "string - The Sentry issue ID")],
    "Issue details with title, count, user count, status, etc."⟩,
   ⟨"get_stacktrace",
    "Get the stack trace for the most recent event of a Sentry issue",
    [("issue_id", "string - The Sentry issue ID")],
    "Stack trace with exception type, message, and frames"⟩,
   ⟨"search_knowledge_base",
    "Search for similar past incidents in the knowledge base using semantic similarity",
    [("error_message", "string - Error message to search for"),
     ("limit", "int (optional, default=3) - Max results")],
    "List of similar incidents with their fixes and similarity scores"⟩,
   ⟨"analyze_error_frequency",
    "Analyze error frequency patterns and trends over time",
    [("issue_id", "string - The Sentry issue ID")],
    "Frequency analysis with trend (increasing/decreasing/stable) and occurrence counts"⟩,
   ⟨"get_user_impact",
    "Get user impact metrics - how many users are affected",
    [("issue_id", "string - The Sentry issue ID")],
    "Number of affected users and impact level"⟩]

/-- Keys of the `tool_map` dispatch dict (source lines 145-151); they coincide
with the catalog names. -/
def tool_names : List String :=
  ["get_sentry_issue_details", "get_stacktrace", "search_knowledge_base",
   "analyze_error_frequency", "get_user_impact"]

/-- Source `_load_tool_descriptions`: the tool catalog formatted for the
prompt; the parameters dict is interpolated with its Python `str`/`repr`. -/
def _load_tool_descriptions : String :=
  tools_catalog.foldl
    (fun acc t =>
      acc ++ "Tool: " ++ t.name ++ "\n  Description: " ++ t.description ++
        "\n  Parameters: " ++
        pyStr (Json.obj (t.parameters.map (fun p => (p.1, Json.str p.2)))) ++
        "\n  Returns: " ++ t.returns ++ "\n\n")
    "Available MCP Tools:\n\n"

/-- Python `str(result)[:200] + "..." if len(str(result)) > 200 else
str(result)`: the truncated preview placed in the `tool_result` event. -/
def preview_string (result : Json) : String :=
  if pyLen (pyStr result) > 200 then pyTake (pyStr result) 200 ++ "..."
  else pyStr result

/-- Source `_execute_tool` (lines 129-175): emit `tool_execution`; unknown
names short-circuit to an error dict; otherwise await the capability inside
`try`, emitting `tool_result` and converting any exception to an error dict.
The success-path `tool_result` emission sits inside the `try`, so a callback
exception there is caught by the same `except` and converted to an error
result; the error-path emission sits inside the `except` block and may
propagate. -/
def _execute_tool (cfg : AgentConfig) (tool_name : String) (arguments : Json) :
    Except String (Json × List Effect) :=
  match _emit_step cfg "tool_execution" (StepData.toolExecution tool_name arguments) with
  | Except.error m => Except.error m
  | Except.ok e1 =>
    if tool_name ∈ tool_names then
      match cfg.caps tool_name arguments with
      | CapResult.ok result =>
        match _emit_step cfg "tool_result"
            (StepData.toolResultOk tool_name (preview_string result)) with
        | Except.ok e2 =>
          Except.ok (result, e1 ++ [Effect.capability tool_name arguments] ++ e2)
        | Except.error m =>
          match _emit_step cfg "tool_result" (StepData.toolResultErr tool_name m) with
          | Except.error m2 => Except.error m2
          | Except.ok e3 =>
            Except.ok (Json.obj [("error", Json.str m)],
              e1 ++ [Effect.capability tool_name arguments] ++ e3)
      | CapResult.exn m =>
        match _emit_step cfg "tool_result" (StepData.toolResultErr tool_name m) with
        | Except.error m2 => Except.error m2
        | Except.ok e3 =>
          Except.ok (Json.obj [("error", Json.str m)],
            e1 ++ [Effect.capability tool_name arguments] ++ e3)
    else
      Except.ok (Json.obj [("error", Json.str ("Unknown tool: " ++ tool_name))], e1)

/-- Source `_create_react_prompt` (lines 177-229), with `task` and
`tools_info` interpolated (`\x7b\x7b` in the f-string is a literal brace). -/
def _create_react_prompt (task : String) (tools_info : String) : String :=
  "You are an expert Site Reliability Engineer investigating a production incident.\nYou must use a ReAct (Reasoning + Acting) approach to solve the problem.\n\nYour task: "
    ++ task ++ "\n\n" ++ tools_info ++
    "\n\nIMPORTANT INSTRUCTIONS:\n1. You work in steps. Each response must be ONE of these actions:\n   - THINK: Reason about what you know and what you need to find out\n   - TOOL_CALL: Call a specific tool to get information\n   - ANSWER: Provide the final answer when you have enough information\n\n2. Format your responses EXACTLY like this:\n\nFor thinking:\n```\nACTION: THINK\nREASONING: [Your reasoning about the current situation and what to do next]\n```\n\nFor tool calls:\n```\nACTION: TOOL_CALL\nTOOL: [exact tool name]\nARGUMENTS: \x7b\"parameter\": \"value\"\x7d\n```\n\nFor final answer:\n```\nACTION: ANSWER\nROOT_CAUSE: [Brief description of root cause]\nCONFIDENCE: [0-100 score]\nSUGGESTED_FIXES: [\n  \x7b\n    \"title\": \"Fix title\",\n    \"steps\": [\"Step 1\", \"Step 2\"],\n    \"confidence\": 90,\n    \"time_estimate\": \"30 minutes\",\n    \"risk\": \"low\"\n  \x7d\n]\nKEY_FINDINGS: [List of important discoveries]\n```\n\n3. Start by thinking about what information you need\n4. Call tools to gather that information\n5. Continue until you can provide a comprehensive answer\n6. Be efficient - don't call tools unnecessarily\n\nBegin your investigation."

/-- Task description built inside `investigate` (lines 389-398). -/
def task_string (issue_id error_message : String) : String :=
  "Investigate Sentry issue " ++ issue_id ++ " with error: \"" ++ error_message ++
    "\"\n\nYou need to:\n1. Understand what the error is about\n2. Analyze its patterns and impact\n3. Search for similar past incidents\n4. Determine the root cause\n5. Suggest concrete fixes\n\nUse the available tools to gather information, then provide a comprehensive analysis."

/-- The opening `HumanMessage` of the conversation (line 406). -/
def begin_message (issue_id error_message : String) : String :=
  "Begin investigating issue " ++ issue_id ++ ": " ++ error_message

/-- `self.conversation_history` as (re)initialized by `investigate`
(lines 404-407): the protocol prompt plus the opening human message. -/
def initial_history (issue_id error_message : String) : List Msg :=
  [Msg.system (_create_react_prompt (task_string issue_id error_message)
      _load_tool_descriptions),
   Msg.human (begin_message issue_id error_message)]

/-- The forced-termination nudge appended near the iteration budget
(line 489). -/
def nudge_message : String :=
  "You've reached the maximum number of iterations. Please provide your final answer now."

/-- Result of handling one parsed action inside the loop body: continue with
the updated history/observations/effects, or break with a final answer. -/
inductive StepOut where
  | cont (history : List Msg) (observations : List Obs) (effects : List Effect)
  | answered (fa : FinalAnswer) (history : List Msg) (observations : List Obs)
      (effects : List Effect)

/-- The dispatch on `parsed["action"]` inside the loop body (lines 429-484).
`history` already holds the appended assistant response.  The `empty` case
mirrors the `KeyError` a missing `"action"` key would raise; it is
unreachable because `_parse_llm_response` never returns it. -/
def runStep (cfg : AgentConfig) (parsed : Parsed) (iteration : Nat)
    (history : List Msg) (obs : List Obs) (eff : List Effect) :
    Except String StepOut :=
  match parsed with
  | Parsed.think reasoning =>
    match _emit_step cfg "thinking" (StepData.thinking iteration reasoning) with
    | Except.error m => Except.error m
    | Except.ok e =>
      Except.ok (StepOut.cont history (obs ++ [Obs.thought reasoning]) (eff ++ e))
  | Parsed.tool_call tool_name arguments =>
    match _emit_step cfg "tool_call"
        (StepData.toolCallEv iteration tool_name arguments) with
    | Except.error m => Except.error m
    | Except.ok e1 =>
      match tool_name with
      | some tn =>
        if tn = "" then
          Except.ok (StepOut.cont
            (history ++ [Msg.human "OBSERVATION: Tool call failed - no tool name provided"])
            obs (eff ++ e1))
        else
          match _execute_tool cfg tn arguments with
          | Except.error m => Except.error m
          | Except.ok (result, e2) =>
            Except.ok (StepOut.cont
              (history ++
                [Msg.human ("OBSERVATION: Tool '" ++ tn ++ "' returned: " ++
                  jsonDumps result)])
              (obs ++ [Obs.tool_result tn result]) (eff ++ e1 ++ e2))
      | none =>
        Except.ok (StepOut.cont
          (history ++ [Msg.human "OBSERVATION: Tool call failed - no tool name provided"])
          obs (eff ++ e1))
  | Parsed.answer root_cause confidence fixes findings =>
    match _emit_step cfg "final_answer"
        (StepData.finalAnswerEv (Parsed.answer root_cause confidence fixes findings)) with
    | Except.error m => Except.error m
    | Except.ok e =>
      Except.ok (StepOut.answered
        ⟨root_cause, (confidence : Rat) / 100, fixes, findings, iteration, obs⟩
        history obs (eff ++ e))
  | Parsed.empty => Except.error "KeyError: action"

/-- State at loop exit: the iteration counter, the optional parsed final
answer, and the accumulated history / observations / effect trace. -/
structure LoopOut where
  iteration : Nat
  final_answer : Option FinalAnswer
  history : List Msg
  observations : List Obs
  effects : List Effect

/-- The `while iteration < self.max_iterations` ReAct loop of `investigate`
(lines 410-490), structurally recursive on fuel; called with
`fuel = max_iterations` the fuel never runs out before the condition fails.
Each pass increments the counter, emits the `iteration` event, invokes the
model on the current history, appends the response, dispatches the parsed
action, and (unless the action answered) appends the nudge when
`iteration >= max_iterations - 1`. -/
def investLoop (cfg : AgentConfig) : Nat → Nat → List Msg → List Obs →
    List Effect → Except String LoopOut
  | 0, it, history, obs, eff => Except.ok ⟨it, none, history, obs, eff⟩
  | fuel + 1, it, history, obs, eff =>
    if it < cfg.max_iterations then
      match _emit_step cfg "iteration"
          (StepData.iterationEv (it + 1) cfg.max_iterations) with
      | Except.error m => Except.error m
      | Except.ok e1 =>
        let response := cfg.llm history
        let history2 := history ++ [Msg.ai response]
        match runStep cfg (_parse_llm_response response) (it + 1) history2 obs
            (eff ++ e1 ++ [Effect.llmInvoke history]) with
        | Except.error m => Except.error m
        | Except.ok (StepOut.answered fa h2 o2 e2) =>
          Except.ok ⟨it + 1, some fa, h2, o2, e2⟩
        | Except.ok (StepOut.cont h2 o2 e2) =>
          let h3 :=
            if cfg.max_iterations - 1 ≤ it + 1 then h2 ++ [Msg.human nudge_message]
            else h2
          investLoop cfg fuel (it + 1) h3 o2 e2
    else Except.ok ⟨it, none, history, obs, eff⟩

/-- The synthesized fallback answer when the loop exhausts its budget without
an ANSWER action (lines 493-501). -/
def exhausted_answer (iteration : Nat) (obs : List Obs) : FinalAnswer :=
  ⟨"Investigation incomplete - maximum iterations reached", 0.3, [],
    [Json.str "Investigation did not complete within iteration limit"], iteration, obs⟩

/-- Source `investigate` (lines 362-515): emit `start`, build the initial
conversation, run the loop, fall back to the exhaustion answer when no ANSWER
was parsed, and deliver the `complete` event when a callback is present. -/
def investigate (cfg : AgentConfig) (issue_id error_message : String) :
    Except String (FinalAnswer × List Effect) :=
  match _emit_step cfg "start" (StepData.start issue_id error_message "autonomous") with
  | Except.error m => Except.error m
  | Except.ok e0 =>
    match investLoop cfg cfg.max_iterations 0 (initial_history issue_id error_message)
        [] e0 with
    | Except.error m => Except.error m
    | Except.ok out =>
      let final_answer :=
        match out.final_answer with
        | some fa => fa
        | none => exhausted_answer out.iteration out.observations
      match cfg.stream_callback with
      | none => Except.ok (final_answer, out.effects)
      | some cb =>
        match cb (AgentEvent.complete issue_id error_message final_answer "success") with
        | Except.error m => Except.error m
        | Except.ok _ =>
          Except.ok (final_answer,
            out.effects ++ [Effect.completeSent issue_id error_message final_answer])

/-- Planning prompt of `plan_investigation` (lines 538-551). -/
def planning_prompt (issue_id error_message : String) : String :=
  "Given this error: \"" ++ error_message ++ "\" (Issue ID: " ++ issue_id ++
    ")\n\nAnd these available tools:\n" ++ _load_tool_descriptions ++
    "\n\nCreate a step-by-step investigation plan. List the tools you'll likely need and in what order.\nBe strategic and efficient.\n\nFormat:\n1. [Tool name] - [Why you need it]\n2. [Tool name] - [Why you need it]\n...\n\nProvide only the plan, nothing else."

/-- The two messages of the planning model call (lines 553-556). -/
def plan_messages (issue_id error_message : String) : List Msg :=
  [Msg.system "You are an expert debugger. Create an investigation plan.",
   Msg.human (planning_prompt issue_id error_message)]

/-- Python `line[0].isdigit()` guarded by a non-empty check. -/
def line_first_isdigit (line : String) : Bool :=
  match line.toList with
  | [] => false
  | c :: _ => c.isDigit

/-- Plan parsing of `plan_investigation` (lines 559-569): lines whose raw
first character is a digit contribute the stripped text before the first
dash, with the part after the first dot taken when a dot occurs (`if parts:`
is always true since `split` never returns an empty list). -/
def parse_plan (content : String) : List String :=
  (pySplitLines (pyStrip content)).foldl
    (fun plan line =>
      if !(pyStrip line).toList.isEmpty && line_first_isdigit line then
        let tool_part := pyStrip ((pySplitOn line "-").headD "")
        let tool_name :=
          if pyContains tool_part "." then pyStrip (pySplitGet tool_part "." 1)
          else tool_part
        plan ++ [tool_name]
      else plan)
    []

/-- Source `plan_investigation` (lines 531-576): one planning model call,
permissive plan parsing, and an `investigation_plan` progress event. -/
def plan_investigation (cfg : AgentConfig) (issue_id error_message : String) :
    Except String (List String × List Effect) :=
  let response := cfg.llm (plan_messages issue_id error_message)
  let plan := parse_plan response
  match _emit_step cfg "investigation_plan"
      (StepData.investigationPlan plan response) with
  | Except.error m => Except.error m
  | Except.ok e =>
    Except.ok (plan, [Effect.llmInvoke (plan_messages issue_id error_message)] ++ e)

/-- Python `list.insert(i, x)` (indices clamp like `take`/`drop`). -/
def pyListInsert (l : List Msg) (i : Nat) (m : Msg) : List Msg :=
  l.take i ++ [m] ++ l.drop i

/-- Source `investigate_with_planning` (lines 578-591): run the planning
phase, insert the plan message at position 1 of the *current*
`self.conversation_history` (`history0` here), then call `investigate` —
which reassigns `self.conversation_history` from scratch, discarding
`_history1`.  The unused binding mirrors that discard. -/
def investigate_with_planning (cfg : AgentConfig) (history0 : List Msg)
    (issue_id error_message : String) : Except String (FinalAnswer × List Effect) :=
  match plan_investigation cfg issue_id error_message with
  | Except.error m => Except.error m
  | Except.ok (plan, pe) =>
    let _history1 := pyListInsert history0 1
      (Msg.system ("Investigation plan: " ++ pyStr (Json.arr (plan.map Json.str)) ++
        ". Follow this plan but adapt as needed based on findings."))
    match investigate cfg issue_id error_message with
    | Except.error m => Except.error m
    | Except.ok (fa, ef) => Except.ok (fa, pe ++ ef)

/-- Terminal status of the specification's `InvestigationResult`. -/
inductive Status where
  | Completed
  | IncompleteExhausted

/-- Modelled from the spec: the `status` field of `InvestigationResult` —
`Completed` when the loop terminated through a parsed Answer action,
`IncompleteExhausted` when it exited with no Answer (the source result dict
carries no such field; this is the spec's abstraction of the two exits). -/
def specStatus : Option FinalAnswer → Status
  | some _ => Status.Completed
  | none => Status.IncompleteExhausted

/-- Projection of an investigation outcome to the returned answer dict. -/
def answerOf (r : Except String (FinalAnswer × List Effect)) :
    Except String FinalAnswer :=
  r.map Prod.fst

/-- Pure characterization of the loop under a benign callback: because the
parser always yields a Think action (see `_parse_llm_response`), each pass
deterministically appends the response, a thought observation and three trace
entries, so the loop state depends only on the model function and the budget.
Proved equal to `investLoop` in `investLoop_benign` below. -/
def loopSpecAux (llm : List Msg → String) (N : Nat) : Nat → Nat → List Msg →
    List Obs → List Effect → LoopOut
  | 0, it, h, o, e => ⟨it, none, h, o, e⟩
  | fuel + 1, it, h, o, e =>
    if it < N then
      let r := llm h
      let h2 := h ++ [Msg.ai r]
      let o2 := o ++ [Obs.thought r]
      let e2 := ((e ++ [Effect.emitted "iteration" (StepData.iterationEv (it + 1) N)]) ++
        [Effect.llmInvoke h]) ++ [Effect.emitted "thinking" (StepData.thinking (it + 1) r)]
      let h3 := if N - 1 ≤ it + 1 then h2 ++ [Msg.human nudge_message] else h2
      loopSpecAux llm N fuel (it + 1) h3 o2 e2
    else ⟨it, none, h, o, e⟩

/-- Loop output of `investigate` under a benign callback. -/
def investigateSpecOut (cfg : AgentConfig) (issue_id error_message : String) : LoopOut :=
  loopSpecAux cfg.llm cfg.max_iterations cfg.max_iterations 0
    (initial_history issue_id error_message) []
    [Effect.emitted "start" (StepData.start issue_id error_message "autonomous")]

/-- History projection of a step outcome. -/
def stepHistory : StepOut → List Msg
  | StepOut.cont h _ _ => h
  | StepOut.answered _ h _ _ => h

/-- A well-formed TOOL_CALL response: an `ACTION:` line valued `TOOL_CALL`, a
`TOOL:` line, and an `ARGUMENTS:` line holding valid JSON. -/
def tool_call_response : String :=
  "ACTION: TOOL_CALL\nTOOL: get_stacktrace\nARGUMENTS: \x7b\"issue_id\": \"PROJ-1\"\x7d"

/-- A well-formed ANSWER response carrying `CONFIDENCE: 85`. -/
def answer_85_response : String :=
  "ACTION: ANSWER\nROOT_CAUSE: Stale cache\nCONFIDENCE: 85\nKEY_FINDINGS: [\"finding one\"]"

/-- Agent configuration whose model stub replies with the well-formed ANSWER
response from the first iteration on, with a budget of 2 and no callback. -/
def c2_cfg : AgentConfig :=
  ⟨fun _ => answer_85_response, none, fun _ _ => CapResult.exn "down", 2⟩

/-- Agent configuration for exercising the planning path: constant model
stub, no callback, budget 1. -/
def c7_cfg : AgentConfig :=
  ⟨fun _ => "x", none, fun _ _ => CapResult.exn "down", 1⟩

/-- A stream callback that raises whenever it is invoked. -/
def raising_cb : AgentEvent → Except String Unit :=
  fun _ => Except.error "socket closed"

/-- Agent configuration with the raising stream callback installed. -/
def c8_cfg : AgentConfig :=
  ⟨fun _ => "x", some raising_cb, fun _ _ => CapResult.exn "down", 3⟩

/-- Text with no `ACTION:` marker on any line. -/
def no_marker_response : String := "I am not sure yet.\nLet me look at the logs."

/-- Because `action` is never reassigned in `_parse_llm_response`, the final
fallback fires on every input: the parser returns a Think action holding the
raw response, whatever the response contains. -/
theorem parse_always_think (s : String) : _parse_llm_response s = Parsed.think s := rfl

/-- Under a benign callback, `_emit_step` succeeds and traces the event. -/
theorem benign_emit (cfg : AgentConfig) (hb : benign cfg.stream_callback)
    (t : String) (d : StepData) :
    _emit_step cfg t d = Except.ok [Effect.emitted t d] := by
  unfold _emit_step
  cases hcb : cfg.stream_callback with
  | none => rfl
  | some cb =>
    rw [hcb] at hb
    have hb2 : ∀ ev, cb ev = Except.ok () := hb
    simp only [hb2]

/-- Under a benign callback, `investLoop` never fails and computes the pure
loop characterization `loopSpecAux`. -/
theorem investLoop_benign (cfg : AgentConfig) (hb : benign cfg.stream_callback) :
    ∀ fuel it history obs eff,
      investLoop cfg fuel it history obs eff =
        Except.ok (loopSpecAux cfg.llm cfg.max_iterations fuel it history obs eff) := by
  intro fuel
  induction fuel with
  | zero => intro it h o e; rfl
  | succ n ih =>
    intro it h o e
    rw [investLoop, loopSpecAux]
    by_cases hit : it < cfg.max_iterations
    · simp only [if_pos hit, benign_emit cfg hb, parse_always_think, runStep]
      exact ih (it + 1) _ _ _
    · rw [if_neg hit, if_neg hit]

/-- The pure loop characterization never produces a final answer. -/
theorem loopSpec_none (llm : List Msg → String) (N : Nat) :
    ∀ fuel it h o e, (loopSpecAux llm N fuel it h o e).final_answer = none := by
  intro fuel
  induction fuel with
  | zero => intro it h o e; rfl
  | succ n ih =>
    intro it h o e
    rw [loopSpecAux]
    by_cases hit : it < N
    · rw [if_pos hit]; exact ih (it + 1) _ _ _
    · rw [if_neg hit]

/-- With enough fuel the pure loop characterization exits exactly at the
iteration budget. -/
theorem loopSpec_exhaust (llm : List Msg → String) (N : Nat) :
    ∀ fuel it h o e, it ≤ N → N ≤ it + fuel →
      (loopSpecAux llm N fuel it h o e).iteration = N := by
  intro fuel
  induction fuel with
  | zero =>
    intro it h o e hle hge
    have : it = N := Nat.le_antisymm hle (by omega)
    rw [loopSpecAux, this]
  | succ n ih =>
    intro it h o e hle hge
    rw [loopSpecAux]
    by_cases hit : it < N
    · rw [if_pos hit]
      exact ih (it + 1) _ _ _ hit (by omega)
    · rw [if_neg hit]
      exact Nat.le_antisymm hle (Nat.le_of_not_lt hit)

/-- Under a benign callback, `investigate` always returns the exhaustion
answer built from the pure loop characterization. -/
theorem investigate_benign (cfg : AgentConfig) (hb : benign cfg.stream_callback)
    (issue_id error_message : String) :
    ∃ eff, investigate cfg issue_id error_message =
      Except.ok (exhausted_answer (investigateSpecOut cfg issue_id error_message).iteration
        (investigateSpecOut cfg issue_id error_message).observations, eff) := by
  unfold investigate
  simp only [benign_emit cfg hb, investLoop_benign cfg hb, loopSpec_none]
  cases hcb : cfg.stream_callback with
  | none => exact ⟨_, rfl⟩
  | some cb =>
    rw [hcb] at hb
    have hb2 : ∀ ev, cb ev = Except.ok () := hb
    simp only [hb2]
    exact ⟨_, rfl⟩

/-- C1: the claim states that a well-formed TOOL_CALL response (an `ACTION:`
line valued `TOOL_CALL`, a `TOOL:` line, an `ARGUMENTS:` line with valid
JSON) is parsed to a ToolCall action with exactly the parsed arguments.  On
the code, the never-assigned `action` flag makes `_parse_llm_response` return
a Think action holding the full response text instead, so the well-formed
TOOL_CALL input below is not parsed as a tool call. -/
theorem well_formed_tool_call_parsed_as_think :
    _parse_llm_response tool_call_response = Parsed.think tool_call_response := rfl

/-- C2: the claim states that an ANSWER response with `CONFIDENCE: 85` on
iteration 1 terminates the loop immediately with confidence 0.85.  On the
code, the response is parsed as a Think action (never-assigned `action`
flag), so the loop runs to its budget (2 here) and returns the exhaustion
fallback with confidence 0.3. -/
theorem answer_response_ignored :
    answerOf (investigate c2_cfg "ISSUE-1" "Database timeout") =
      Except.ok (exhausted_answer 2
        [Obs.thought answer_85_response, Obs.thought answer_85_response])
    ∧ _parse_llm_response answer_85_response = Parsed.think answer_85_response
    ∧ (exhausted_answer 2
        [Obs.thought answer_85_response, Obs.thought answer_85_response]).confidence = 0.3
    ∧ (exhausted_answer 2
        [Obs.thought answer_85_response, Obs.thought answer_85_response]).iterations = 2 :=
  ⟨rfl, rfl, rfl, rfl⟩

/-- C4: `_parse_llm_response` is total (the embedding returns a `Parsed` for
every string, mirroring that the source catches every exception its parsing
can raise), and on input with no `ACTION:` marker line it returns a Think
action whose reasoning is the entire input text. -/
theorem parse_no_marker_is_think (s : String)
    (_h : ∀ l ∈ pySplitLines (pyStrip s), pyStartsWith l "ACTION:" = false) :
    _parse_llm_response s = Parsed.think s :=
  parse_always_think s

/-- C4 witness at a concrete marker-free input. -/
theorem parse_no_marker_is_think_witness :
    (∀ l ∈ pySplitLines (pyStrip no_marker_response),
      pyStartsWith l "ACTION:" = false)
    ∧ _parse_llm_response no_marker_response = Parsed.think no_marker_response :=
  ⟨by decide, parse_no_marker_is_think no_marker_response (by decide)⟩

/-- C8 counterexample: the claim states a raising stream callback does not
abort the investigation; on the code the callback exception propagates out of
`_emit_step` (no guard), so the run aborts at the very first `start` event. -/
theorem raising_callback_aborts_investigation :
    investigate c8_cfg "ISSUE-1" "Timeout" = Except.error "socket closed" := rfl

/-- C8 (amended): the result of `investigate` is the same whether the stream
callback is absent or present and always succeeding; a raising callback,
however, aborts the run (see the counterexample). -/
theorem stream_callback_transparent (llm : List Msg → String)
    (caps : String → Json → CapResult) (N : Nat)
    (cb : AgentEvent → Except String Unit) (issue err : String)
    (h : ∀ ev, cb ev = Except.ok ()) :
    answerOf (investigate ⟨llm, some cb, caps, N⟩ issue err) =
      answerOf (investigate ⟨llm, none, caps, N⟩ issue err) := by
  obtain ⟨e1, h1⟩ := investigate_benign ⟨llm, some cb, caps, N⟩ h issue err
  obtain ⟨e2, h2⟩ := investigate_benign ⟨llm, none, caps, N⟩ trivial issue err
  unfold answerOf
  rw [h1, h2]
  rfl

/-- C8 witness: the transparency theorem applied at a concrete stub. -/
theorem stream_callback_transparent_witness :
    answerOf (investigate ⟨fun _ => "x", some (fun _ => Except.ok ()),
        fun _ _ => CapResult.exn "down", 1⟩ "I" "E") =
      answerOf (investigate ⟨fun _ => "x", none,
        fun _ _ => CapResult.exn "down", 1⟩ "I" "E") :=
  stream_callback_transparent _ _ _ _ "I" "E" (fun _ => rfl)

/-- C3: with `maxIterations = N`, a benign callback and a model stub whose
every response parses as Think, the loop exits after exactly `N` iterations
with no parsed answer (spec status `IncompleteExhausted`), and `investigate`
returns the synthesized result with confidence 0.3, iterations `N` and the
single key finding noting the iteration limit. -/
theorem think_stub_exhausts_iterations (llm : List Msg → String)
    (cb : Option (AgentEvent → Except String Unit))
    (caps : String → Json → CapResult) (N : Nat) (issue err : String)
    (hb : benign cb)
    (_hstub : ∀ msgs, _parse_llm_response (llm msgs) = Parsed.think (llm msgs)) :
    ∃ out eff,
      investLoop ⟨llm, cb, caps, N⟩ N 0 (initial_history issue err) []
          [Effect.emitted "start" (StepData.start issue err "autonomous")] = Except.ok out
      ∧ out.iteration = N
      ∧ out.final_answer = none
      ∧ specStatus out.final_answer = Status.IncompleteExhausted
      ∧ investigate ⟨llm, cb, caps, N⟩ issue err =
          Except.ok (exhausted_answer N out.observations, eff)
      ∧ (exhausted_answer N out.observations).confidence = 0.3
      ∧ (exhausted_answer N out.observations).iterations = N
      ∧ (exhausted_answer N out.observations).key_findings =
          [Json.str "Investigation did not complete within iteration limit"]
      ∧ (exhausted_answer N out.observations).root_cause =
          "Investigation incomplete - maximum iterations reached" := by
  have hbc : benign (AgentConfig.mk llm cb caps N).stream_callback := hb
  obtain ⟨eff, hinv⟩ := investigate_benign ⟨llm, cb, caps, N⟩ hbc issue err
  have hiter : (investigateSpecOut ⟨llm, cb, caps, N⟩ issue err).iteration = N :=
    loopSpec_exhaust llm N N 0 _ _ _ (Nat.zero_le N) (by omega)
  have hnone : (investigateSpecOut ⟨llm, cb, caps, N⟩ issue err).final_answer = none :=
    loopSpec_none llm N N 0 _ _ _
  rw [hiter] at hinv
  refine ⟨investigateSpecOut ⟨llm, cb, caps, N⟩ issue err, eff,
    investLoop_benign ⟨llm, cb, caps, N⟩ hbc N 0 _ _ _, hiter, hnone, ?_, hinv,
    rfl, rfl, rfl, rfl⟩
  rw [hnone]
  rfl

/-- C3 witness: the exhaustion theorem applied at a concrete stub with
budget 2. -/
theorem think_stub_exhausts_iterations_witness :
    ∃ out eff,
      investLoop ⟨fun _ => "Let me think", none, fun _ _ => CapResult.exn "down", 2⟩ 2 0
          (initial_history "ISSUE-9" "KeyError") []
          [Effect.emitted "start" (StepData.start "ISSUE-9" "KeyError" "autonomous")] =
        Except.ok out
      ∧ out.iteration = 2
      ∧ out.final_answer = none
      ∧ specStatus out.final_answer = Status.IncompleteExhausted
      ∧ investigate ⟨fun _ => "Let me think", none, fun _ _ => CapResult.exn "down", 2⟩
          "ISSUE-9" "KeyError" = Except.ok (exhausted_answer 2 out.observations, eff)
      ∧ (exhausted_answer 2 out.observations).confidence = 0.3
      ∧ (exhausted_answer 2 out.observations).iterations = 2
      ∧ (exhausted_answer 2 out.observations).key_findings =
          [Json.str "Investigation did not complete within iteration limit"]
      ∧ (exhausted_answer 2 out.observations).root_cause =
          "Investigation incomplete - maximum iterations reached" :=
  think_stub_exhausts_iterations (fun _ => "Let me think") none
    (fun _ _ => CapResult.exn "down") 2 "ISSUE-9" "KeyError" trivial (fun _ => rfl)

/-- C7: the claim states the plan is injected as an additional System context
entry seen by the first in-loop model call.  On the code,
`investigate_with_planning` inserts the plan message into
`self.conversation_history`, but `investigate` immediately reassigns that
list, so the investigation — including the message list handed to the first
in-loop model call (`Effect.llmInvoke (initial_history ...)`, exactly the two
standard entries) — is identical to a plain `investigate` run; only the
planning-phase effects are prepended. -/
theorem planning_context_entry_discarded :
    investigate c7_cfg "I1" "E1" =
      Except.ok (exhausted_answer 1 [Obs.thought "x"],
        [Effect.emitted "start" (StepData.start "I1" "E1" "autonomous"),
         Effect.emitted "iteration" (StepData.iterationEv 1 1),
         Effect.llmInvoke (initial_history "I1" "E1"),
         Effect.emitted "thinking" (StepData.thinking 1 "x")])
    ∧ investigate_with_planning c7_cfg [Msg.system "prior history"] "I1" "E1" =
      Except.ok (exhausted_answer 1 [Obs.thought "x"],
        [Effect.llmInvoke (plan_messages "I1" "E1"),
         Effect.emitted "investigation_plan" (StepData.investigationPlan [] "x"),
         Effect.emitted "start" (StepData.start "I1" "E1" "autonomous"),
         Effect.emitted "iteration" (StepData.iterationEv 1 1),
         Effect.llmInvoke (initial_history "I1" "E1"),
         Effect.emitted "thinking" (StepData.thinking 1 "x")])
    ∧ initial_history "I1" "E1" =
      [Msg.system (_create_react_prompt (task_string "I1" "E1") _load_tool_descriptions),
       Msg.human (begin_message "I1" "E1")] :=
  ⟨rfl, rfl, rfl⟩

/-- C5: for a tool name outside the registry, `_execute_tool` returns the
`Unknown tool` error dict with no capability invocation in its trace (only
the `tool_execution` progress event), and the loop's ToolCall branch records
the error dict as a tool-result observation and continues (`StepOut.cont`). -/
theorem unknown_tool_short_circuits (llm : List Msg → String)
    (cb : Option (AgentEvent → Except String Unit))
    (caps : String → Json → CapResult) (N : Nat) (name : String) (args : Json)
    (iteration : Nat) (hist : List Msg) (obs : List Obs) (eff : List Effect)
    (hb : benign cb) (hn : name ∉ tool_names) (hne : name ≠ "") :
    _execute_tool ⟨llm, cb, caps, N⟩ name args =
      Except.ok (Json.obj [("error", Json.str ("Unknown tool: " ++ name))],
        [Effect.emitted "tool_execution" (StepData.toolExecution name args)])
    ∧ runStep ⟨llm, cb, caps, N⟩ (Parsed.tool_call (some name) args) iteration hist obs eff =
      Except.ok (StepOut.cont
        (hist ++ [Msg.human ("OBSERVATION: Tool '" ++ name ++ "' returned: " ++
          jsonDumps (Json.obj [("error", Json.str ("Unknown tool: " ++ name))]))])
        (obs ++ [Obs.tool_result name
          (Json.obj [("error", Json.str ("Unknown tool: " ++ name))])])
        (eff ++ [Effect.emitted "tool_call" (StepData.toolCallEv iteration (some name) args)]
          ++ [Effect.emitted "tool_execution" (StepData.toolExecution name args)])) := by
  have hbc : benign (AgentConfig.mk llm cb caps N).stream_callback := hb
  have hexec : _execute_tool ⟨llm, cb, caps, N⟩ name args =
      Except.ok (Json.obj [("error", Json.str ("Unknown tool: " ++ name))],
        [Effect.emitted "tool_execution" (StepData.toolExecution name args)]) := by
    unfold _execute_tool
    simp only [benign_emit _ hbc, if_neg hn]
  refine ⟨hexec, ?_⟩
  unfold runStep
  simp only [benign_emit _ hbc, if_neg hne, hexec]

/-- C5 witness at the literal `nonexistent_tool`. -/
theorem unknown_tool_short_circuits_witness :
    _execute_tool ⟨fun _ => "", none, fun _ _ => CapResult.exn "down", 0⟩
        "nonexistent_tool" (Json.obj []) =
      Except.ok (Json.obj [("error", Json.str "Unknown tool: nonexistent_tool")],
        [Effect.emitted "tool_execution"
          (StepData.toolExecution "nonexistent_tool" (Json.obj []))])
    ∧ runStep ⟨fun _ => "", none, fun _ _ => CapResult.exn "down", 0⟩
        (Parsed.tool_call (some "nonexistent_tool") (Json.obj [])) 1 [] [] [] =
      Except.ok (StepOut.cont
        [Msg.human ("OBSERVATION: Tool 'nonexistent_tool' returned: " ++
          jsonDumps (Json.obj [("error", Json.str "Unknown tool: nonexistent_tool")]))]
        [Obs.tool_result "nonexistent_tool"
          (Json.obj [("error", Json.str "Unknown tool: nonexistent_tool")])]
        ([Effect.emitted "tool_call"
            (StepData.toolCallEv 1 (some "nonexistent_tool") (Json.obj []))] ++
          [Effect.emitted "tool_execution"
            (StepData.toolExecution "nonexistent_tool" (Json.obj []))])) := by
  have h := unknown_tool_short_circuits (fun _ => "") none (fun _ _ => CapResult.exn "down")
    0 "nonexistent_tool" (Json.obj []) 1 [] [] [] trivial (by decide) (by decide)
  exact h

/-- C6: when a registered capability raises with message `m`, `_execute_tool`
returns the `error: m` dict instead of propagating, and under a benign
callback `_execute_tool` returns a value for every tool name and argument
mapping. -/
theorem tool_exception_contained (llm : List Msg → String)
    (cb : Option (AgentEvent → Except String Unit))
    (caps : String → Json → CapResult) (N : Nat) (name : String) (args : Json)
    (m : String) (hb : benign cb) (hmem : name ∈ tool_names)
    (hexn : caps name args = CapResult.exn m) :
    _execute_tool ⟨llm, cb, caps, N⟩ name args =
      Except.ok (Json.obj [("error", Json.str m)],
        [Effect.emitted "tool_execution" (StepData.toolExecution name args),
         Effect.capability name args,
         Effect.emitted "tool_result" (StepData.toolResultErr name m)])
    ∧ ∀ name2 args2, ∃ r e,
        _execute_tool ⟨llm, cb, caps, N⟩ name2 args2 = Except.ok (r, e) := by
  have hbc : benign (AgentConfig.mk llm cb caps N).stream_callback := hb
  constructor
  · unfold _execute_tool
    simp only [benign_emit _ hbc, if_pos hmem, hexn]
    rfl
  · intro name2 args2
    unfold _execute_tool
    simp only [benign_emit _ hbc]
    by_cases h2 : name2 ∈ tool_names
    · rw [if_pos h2]
      cases caps name2 args2 with
      | ok result => exact ⟨_, _, rfl⟩
      | exn m2 => exact ⟨_, _, rfl⟩
    · rw [if_neg h2]
      exact ⟨_, _, rfl⟩

/-- C6 witness at a concrete raising capability. -/
theorem tool_exception_contained_witness :
    _execute_tool ⟨fun _ => "", none, fun _ _ => CapResult.exn "Connection refused", 0⟩
        "get_user_impact" (Json.obj [("issue_id", Json.str "1")]) =
      Except.ok (Json.obj [("error", Json.str "Connection refused")],
        [Effect.emitted "tool_execution"
          (StepData.toolExecution "get_user_impact" (Json.obj [("issue_id", Json.str "1")])),
         Effect.capability "get_user_impact" (Json.obj [("issue_id", Json.str "1")]),
         Effect.emitted "tool_result"
          (StepData.toolResultErr "get_user_impact" "Connection refused")])
    ∧ ∃ r e,
        _execute_tool ⟨fun _ => "", none, fun _ _ => CapResult.exn "Connection refused", 0⟩
          "no_such_tool" (Json.obj []) = Except.ok (r, e) :=
  ⟨(tool_exception_contained (fun _ => "") none (fun _ _ => CapResult.exn "Connection refused")
      0 "get_user_impact" (Json.obj [("issue_id", Json.str "1")]) "Connection refused"
      trivial (by decide) rfl).1,
   (tool_exception_contained (fun _ => "") none (fun _ _ => CapResult.exn "Connection refused")
      0 "get_user_impact" (Json.obj [("issue_id", Json.str "1")]) "Connection refused"
      trivial (by decide) rfl).2 "no_such_tool" (Json.obj [])⟩

/-- C10: on a successful call of a registered tool, `_execute_tool` returns
the capability's result unmodified; the loop's ToolCall branch serializes the
full result (`jsonDumps result`, no truncation) into the OBSERVATION context
entry and stores the raw result in the observation log, while the
200-character truncation appears only in the `result_preview` field of the
emitted `tool_result` event. -/
theorem tool_result_full_in_observation (llm : List Msg → String)
    (cb : Option (AgentEvent → Except String Unit))
    (caps : String → Json → CapResult) (N : Nat) (name : String) (args : Json)
    (result : Json) (iteration : Nat) (hist : List Msg) (obs : List Obs)
    (eff : List Effect) (hb : benign cb) (hmem : name ∈ tool_names)
    (hok : caps name args = CapResult.ok result) (hne : name ≠ "") :
    _execute_tool ⟨llm, cb, caps, N⟩ name args =
      Except.ok (result,
        [Effect.emitted "tool_execution" (StepData.toolExecution name args),
         Effect.capability name args,
         Effect.emitted "tool_result" (StepData.toolResultOk name (preview_string result))])
    ∧ runStep ⟨llm, cb, caps, N⟩ (Parsed.tool_call (some name) args) iteration hist obs eff =
      Except.ok (StepOut.cont
        (hist ++ [Msg.human ("OBSERVATION: Tool '" ++ name ++ "' returned: " ++
          jsonDumps result)])
        (obs ++ [Obs.tool_result name result])
        (eff ++ [Effect.emitted "tool_call" (StepData.toolCallEv iteration (some name) args)]
          ++ [Effect.emitted "tool_execution" (StepData.toolExecution name args),
              Effect.capability name args,
              Effect.emitted "tool_result"
                (StepData.toolResultOk name (preview_string result))]))
    ∧ preview_string result =
        (if pyLen (pyStr result) > 200 then pyTake (pyStr result) 200 ++ "..."
         else pyStr result) := by
  have hbc : benign (AgentConfig.mk llm cb caps N).stream_callback := hb
  have hexec : _execute_tool ⟨llm, cb, caps, N⟩ name args =
      Except.ok (result,
        [Effect.emitted "tool_execution" (StepData.toolExecution name args),
         Effect.capability name args,
         Effect.emitted "tool_result"
           (StepData.toolResultOk name (preview_string result))]) := by
    unfold _execute_tool
    simp only [benign_emit _ hbc, if_pos hmem, hok]
    rfl
  refine ⟨hexec, ?_, rfl⟩
  unfold runStep
  simp only [benign_emit _ hbc, if_neg hne, hexec]

/-- C10 witness at a concrete successful capability. -/
theorem tool_result_full_in_observation_witness :
    _execute_tool ⟨fun _ => "", none,
        fun _ _ => CapResult.ok (Json.obj [("title", Json.str "NullPointer in checkout")]), 0⟩
        "get_stacktrace" (Json.obj [("issue_id", Json.str "X")]) =
      Except.ok (Json.obj [("title", Json.str "NullPointer in checkout")],
        [Effect.emitted "tool_execution"
          (StepData.toolExecution "get_stacktrace" (Json.obj [("issue_id", Json.str "X")])),
         Effect.capability "get_stacktrace" (Json.obj [("issue_id", Json.str "X")]),
         Effect.emitted "tool_result"
          (StepData.toolResultOk "get_stacktrace"
            (preview_string (Json.obj [("title", Json.str "NullPointer in checkout")])))])
    ∧ runStep ⟨fun _ => "", none,
        fun _ _ => CapResult.ok (Json.obj [("title", Json.str "NullPointer in checkout")]), 0⟩
        (Parsed.tool_call (some "get_stacktrace") (Json.obj [("issue_id", Json.str "X")]))
        1 [] [] [] =
      Except.ok (StepOut.cont
        [Msg.human ("OBSERVATION: Tool 'get_stacktrace' returned: " ++
          jsonDumps (Json.obj [("title", Json.str "NullPointer in checkout")]))]
        [Obs.tool_result "get_stacktrace"
          (Json.obj [("title", Json.str "NullPointer in checkout")])]
        ([Effect.emitted "tool_call"
            (StepData.toolCallEv 1 (some "get_stacktrace")
              (Json.obj [("issue_id", Json.str "X")]))] ++
          [Effect.emitted "tool_execution"
            (StepData.toolExecution "get_stacktrace" (Json.obj [("issue_id", Json.str "X")])),
           Effect.capability "get_stacktrace" (Json.obj [("issue_id", Json.str "X")]),
           Effect.emitted "tool_result"
            (StepData.toolResultOk "get_stacktrace"
              (preview_string (Json.obj [("title", Json.str "NullPointer in checkout")])))]))
    ∧ preview_string (Json.obj [("title", Json.str "NullPointer in checkout")]) =
        (if pyLen (pyStr (Json.obj [("title", Json.str "NullPointer in checkout")])) > 200
         then pyTake (pyStr (Json.obj [("title", Json.str "NullPointer in checkout")])) 200
           ++ "..."
         else pyStr (Json.obj [("title", Json.str "NullPointer in checkout")])) :=
  tool_result_full_in_observation (fun _ => "") none
    (fun _ _ => CapResult.ok (Json.obj [("title", Json.str "NullPointer in checkout")]))
    0 "get_stacktrace" (Json.obj [("issue_id", Json.str "X")])
    (Json.obj [("title", Json.str "NullPointer in checkout")]) 1 [] [] []
    trivial (by decide) rfl (by decide)

/-- Every branch of the loop-body dispatch only appends to the history. -/
theorem runStep_extends (cfg : AgentConfig) (p : Parsed) (it : Nat)
    (hist : List Msg) (obs : List Obs) (eff : List Effect) (so : StepOut)
    (hr : runStep cfg p it hist obs eff = Except.ok so) :
    ∃ d, stepHistory so = hist ++ d := by
  cases p with
  | think r =>
    simp only [runStep] at hr
    cases he : _emit_step cfg "thinking" (StepData.thinking it r) with
    | error m => simp only [he] at hr; exact absurd hr (by simp)
    | ok e =>
      simp only [he] at hr
      simp only [Except.ok.injEq] at hr
      subst hr
      exact ⟨[], (List.append_nil hist).symm⟩
  | tool_call tn args =>
    simp only [runStep] at hr
    cases he : _emit_step cfg "tool_call" (StepData.toolCallEv it tn args) with
    | error m => simp only [he] at hr; exact absurd hr (by simp)
    | ok e1 =>
      simp only [he] at hr
      cases tn with
      | none =>
        simp only [Except.ok.injEq] at hr
        subst hr
        exact ⟨_, rfl⟩
      | some t =>
        by_cases ht : t = ""
        · simp only [if_pos ht] at hr
          simp only [Except.ok.injEq] at hr
          subst hr
          exact ⟨_, rfl⟩
        · simp only [if_neg ht] at hr
          cases hx : _execute_tool cfg t args with
          | error m => simp only [hx] at hr; exact absurd hr (by simp)
          | ok pr =>
            simp only [hx] at hr
            simp only [Except.ok.injEq] at hr
            subst hr
            exact ⟨_, rfl⟩
  | answer rc conf fixes findings =>
    simp only [runStep] at hr
    cases he : _emit_step cfg "final_answer"
        (StepData.finalAnswerEv (Parsed.answer rc conf fixes findings)) with
    | error m => simp only [he] at hr; exact absurd hr (by simp)
    | ok e =>
      simp only [he] at hr
      simp only [Except.ok.injEq] at hr
      subst hr
      exact ⟨[], (List.append_nil hist).symm⟩
  | empty =>
    simp only [runStep] at hr
    exact absurd hr (by simp)

/-- A final answer produced by the loop-body dispatch carries the current
iteration counter. -/
theorem runStep_answered_iterations (cfg : AgentConfig) (p : Parsed) (it : Nat)
    (hist : List Msg) (obs : List Obs) (eff : List Effect) (fa : FinalAnswer)
    (h2 : List Msg) (o2 : List Obs) (e2 : List Effect)
    (hr : runStep cfg p it hist obs eff = Except.ok (StepOut.answered fa h2 o2 e2)) :
    fa.iterations = it := by
  cases p with
  | think r =>
    simp only [runStep] at hr
    cases he : _emit_step cfg "thinking" (StepData.thinking it r) with
    | error m => simp only [he] at hr; exact absurd hr (by simp)
    | ok e => simp only [he] at hr; exact absurd hr (by simp)
  | tool_call tn args =>
    simp only [runStep] at hr
    cases he : _emit_step cfg "tool_call" (StepData.toolCallEv it tn args) with
    | error m => simp only [he] at hr; exact absurd hr (by simp)
    | ok e1 =>
      simp only [he] at hr
      cases tn with
      | none => exact absurd hr (by simp)
      | some t =>
        by_cases ht : t = ""
        · simp only [if_pos ht] at hr; exact absurd hr (by simp)
        · simp only [if_neg ht] at hr
          cases hx : _execute_tool cfg t args with
          | error m => simp only [hx] at hr; exact absurd hr (by simp)
          | ok pr => simp only [hx] at hr; exact absurd hr (by simp)
  | answer rc conf fixes findings =>
    simp only [runStep] at hr
    cases he : _emit_step cfg "final_answer"
        (StepData.finalAnswerEv (Parsed.answer rc conf fixes findings)) with
    | error m => simp only [he] at hr; exact absurd hr (by simp)
    | ok e =>
      simp only [he] at hr
      simp only [Except.ok.injEq, StepOut.answered.injEq] at hr
      obtain ⟨h1, -, -, -⟩ := hr
      rw [← h1]
  | empty =>
    simp only [runStep] at hr
    exact absurd hr (by simp)

/-- Loop invariant: a successful `investLoop` run only appends to the history
it was given, its exit counter stays within the budget (when entered within
the budget), and a recorded final answer carries the exit counter as its
iteration count. -/
theorem investLoop_invariant (cfg : AgentConfig) : ∀ fuel it hist obs eff out,
    investLoop cfg fuel it hist obs eff = Except.ok out →
    (∃ d, out.history = hist ++ d) ∧
    (it ≤ cfg.max_iterations →
      out.iteration ≤ cfg.max_iterations ∧
      ∀ fa, out.final_answer = some fa → fa.iterations = out.iteration) := by
  intro fuel
  induction fuel with
  | zero =>
    intro it hist obs eff out hr
    unfold investLoop at hr
    simp only [Except.ok.injEq] at hr
    subst hr
    refine ⟨⟨[], (List.append_nil hist).symm⟩, fun hle => ⟨hle, fun fa hfa => ?_⟩⟩
    exact absurd hfa (by simp)
  | succ n ih =>
    intro it hist obs eff out hr
    rw [investLoop] at hr
    by_cases hit : it < cfg.max_iterations
    · simp only [if_pos hit] at hr
      cases he : _emit_step cfg "iteration"
          (StepData.iterationEv (it + 1) cfg.max_iterations) with
      | error m => simp only [he] at hr; exact absurd hr (by simp)
      | ok e1 =>
        simp only [he] at hr
        cases hs : runStep cfg (_parse_llm_response (cfg.llm hist)) (it + 1)
            (hist ++ [Msg.ai (cfg.llm hist)]) obs (eff ++ e1 ++ [Effect.llmInvoke hist]) with
        | error m => simp only [hs] at hr; exact absurd hr (by simp)
        | ok so =>
          simp only [hs] at hr
          obtain ⟨d0, hd0⟩ := runStep_extends cfg _ _ _ _ _ _ hs
          cases so with
          | answered fa h2 o2 e2 =>
            simp only [Except.ok.injEq] at hr
            subst hr
            refine ⟨⟨[Msg.ai (cfg.llm hist)] ++ d0, ?_⟩,
              fun _ => ⟨hit, fun fa' hfa' => ?_⟩⟩
            · have : stepHistory (StepOut.answered fa h2 o2 e2) = h2 := rfl
              rw [this] at hd0
              simpa [List.append_assoc] using hd0
            · have hfi : fa.iterations = it + 1 :=
                runStep_answered_iterations cfg _ _ _ _ _ _ _ _ _ hs
              have hfa2 : fa = fa' := by simpa using hfa'
              rw [← hfa2]
              exact hfi
          | cont h2 o2 e2 =>
            have hrec := ih (it + 1)
              (if cfg.max_iterations - 1 ≤ it + 1 then h2 ++ [Msg.human nudge_message] else h2)
              o2 e2 out hr
            obtain ⟨⟨d1, hd1⟩, hbound⟩ := hrec
            have hsh : stepHistory (StepOut.cont h2 o2 e2) = h2 := rfl
            rw [hsh] at hd0
            have hh3 : ∃ d3,
                (if cfg.max_iterations - 1 ≤ it + 1 then h2 ++ [Msg.human nudge_message]
                 else h2) = h2 ++ d3 := by
              by_cases hc : cfg.max_iterations - 1 ≤ it + 1
              · exact ⟨[Msg.human nudge_message], by rw [if_pos hc]⟩
              · exact ⟨[], by rw [if_neg hc, List.append_nil]⟩
            obtain ⟨d3, hd3⟩ := hh3
            refine ⟨⟨[Msg.ai (cfg.llm hist)] ++ d0 ++ d3 ++ d1, ?_⟩,
              fun _ => hbound hit⟩
            rw [hd1, hd3, hd0]
            simp [List.append_assoc]
    · simp only [if_neg hit] at hr
      simp only [Except.ok.injEq] at hr
      subst hr
      refine ⟨⟨[], (List.append_nil hist).symm⟩, fun hle => ⟨hle, fun fa hfa => ?_⟩⟩
      exact absurd hfa (by simp)

/-- C9: within a single run, every loop step only appends to the conversation
context (a successful `investLoop` run extends its input history), and the
`iterations` count of the result returned by `investigate` never exceeds
`max_iterations`. -/
theorem context_append_only_and_bounded :
    (∀ (cfg : AgentConfig) (fuel it : Nat) (hist : List Msg) (obs : List Obs)
        (eff : List Effect) (out : LoopOut),
        investLoop cfg fuel it hist obs eff = Except.ok out →
        ∃ d, out.history = hist ++ d)
    ∧ (∀ (cfg : AgentConfig) (issue err : String) (r : FinalAnswer × List Effect),
        investigate cfg issue err = Except.ok r →
        r.1.iterations ≤ cfg.max_iterations) := by
  constructor
  · intro cfg fuel it hist obs eff out hr
    exact (investLoop_invariant cfg fuel it hist obs eff out hr).1
  · intro cfg issue err r hr
    unfold investigate at hr
    cases he : _emit_step cfg "start" (StepData.start issue err "autonomous") with
    | error m => simp only [he] at hr; exact absurd hr (by simp)
    | ok e0 =>
      simp only [he] at hr
      cases hl : investLoop cfg cfg.max_iterations 0
          (initial_history issue err) [] e0 with
      | error m => simp only [hl] at hr; exact absurd hr (by simp)
      | ok out =>
        simp only [hl] at hr
        obtain ⟨hle, hfa⟩ :=
          (investLoop_invariant cfg _ _ _ _ _ _ hl).2 (Nat.zero_le _)
        have hiter : ∀ fa,
            (match out.final_answer with
              | some fa => fa
              | none => exhausted_answer out.iteration out.observations) = fa →
            fa.iterations ≤ cfg.max_iterations := by
          intro fa hfa'
          cases hcase : out.final_answer with
          | some fa0 =>
            rw [hcase] at hfa'
            subst hfa'
            rw [hfa fa0 hcase]
            exact hle
          | none =>
            rw [hcase] at hfa'
            subst hfa'
            exact hle
        cases hcb : cfg.stream_callback with
        | none =>
          simp only [hcb] at hr
          simp only [Except.ok.injEq] at hr
          subst hr
          exact hiter _ rfl
        | some cb =>
          simp only [hcb] at hr
          cases hc : cb (AgentEvent.complete issue err
              (match out.final_answer with
                | some fa => fa
                | none => exhausted_answer out.iteration out.observations) "success") with
          | error m => simp only [hc] at hr; exact absurd hr (by simp)
          | ok u =>
            simp only [hc] at hr
            simp only [Except.ok.injEq] at hr
            subst hr
            exact hiter _ rfl

/-- C9 witness: the invariants applied at a concrete zero-budget run. -/
theorem context_append_only_and_bounded_witness :
    (∃ d, (⟨0, none, [Msg.system "s"], [], []⟩ : LoopOut).history = [Msg.system "s"] ++ d)
    ∧ (exhausted_answer 0 [],
        [Effect.emitted "start" (StepData.start "i" "e" "autonomous")]).1.iterations ≤
        (⟨fun _ => "", none, fun _ _ => CapResult.exn "down", 0⟩ : AgentConfig).max_iterations :=
  ⟨context_append_only_and_bounded.1
      ⟨fun _ => "", none, fun _ _ => CapResult.exn "down", 0⟩ 0 0
      [Msg.system "s"] [] [] _ rfl,
   context_append_only_and_bounded.2
      ⟨fun _ => "", none, fun _ _ => CapResult.exn "down", 0⟩ "i" "e" _ rfl⟩

end LogSense
